import Mathlib

/-
Verification of the option-to-argument translator, voice-catalog parser,
voice cache, and configuration persistence of the `macos-say` wrapper
(src/src/mod.ts, src/src/types.ts).  JavaScript `null` is modelled by
`Option.none`; JavaScript truthiness tests on nullable fields are modelled
explicitly (`null`, `""` and `0` are falsy); machine numbers that the code
treats as integers are modelled by `Int`.
-/

namespace MacosSay

/-- The seven individually nullable option fields of the wrapper
(`Options` in src/src/types.ts, lines 78-116).  `none` models `null`. -/
structure Options where
  voice : Option String
  rate : Option Int
  quality : Option Int
  outputFile : Option String
  network : Option String
  audioDeviceID : Option String
  fileFormat : Option String
deriving Repr, DecidableEq

/-- The all-null defaults of the private `options` field (mod.ts 261-269). -/
def defaultOptions : Options :=
  ⟨none, none, none, none, none, none, none⟩

/-- JavaScript truthiness of a nullable string: `null` and `""` are falsy. -/
def strTruthy : Option String → Bool
  | none => false
  | some s => s != ""

/-- JavaScript truthiness of a nullable number: `null` and `0` are falsy. -/
def intTruthy : Option Int → Bool
  | none => false
  | some n => n != 0

/-- Field access at a point where the source has already checked truthiness
(the value is necessarily present there). -/
def orEmpty (o : Option String) : String := o.getD ""

/-- Numeric field access under an established truthiness check. -/
def orZero (o : Option Int) : Int := o.getD 0

/-- Error value: the `message` and `code` carried by `MacOsSayError`
(types.ts 130-149). -/
structure SayError where
  message : String
  code : String
deriving Repr, DecidableEq

/-- `MacOsSay.getArgs` (mod.ts 290-315): build the argument vector by
conditional pushes in the source's fixed order, append the trailing
positional tokens, and render the display command string. -/
def getArgs (o : Options) (suffixArgs : List String) : List String × String :=
  let args : List String := []
  let args := if strTruthy o.voice then args ++ ["-v", "\"" ++ orEmpty o.voice ++ "\""] else args
  let args := if intTruthy o.rate then args ++ ["-r", toString (orZero o.rate)] else args
  let args := if intTruthy o.quality then args ++ ["--quality=" ++ toString (orZero o.quality)] else args
  let args := if strTruthy o.outputFile then args ++ ["-o", orEmpty o.outputFile] else args
  let args := if strTruthy o.network then args ++ ["-n", orEmpty o.network] else args
  let args := if strTruthy o.audioDeviceID then args ++ ["-a", orEmpty o.audioDeviceID] else args
  let args := if strTruthy o.fileFormat then args ++ ["--file-format=" ++ orEmpty o.fileFormat] else args
  let outputArgs := args ++ suffixArgs
  (outputArgs, "say " ++ String.intercalate " " outputArgs)

/-- The tokens the voice field contributes to `getArgs` (mod.ts 292-294). -/
def emitVoice (o : Options) : List String :=
  if strTruthy o.voice then ["-v", "\"" ++ orEmpty o.voice ++ "\""] else []

/-- The tokens the rate field contributes to `getArgs` (mod.ts 295-297). -/
def emitRate (o : Options) : List String :=
  if intTruthy o.rate then ["-r", toString (orZero o.rate)] else []

/-- The token the quality field contributes to `getArgs` (mod.ts 298-300). -/
def emitQuality (o : Options) : List String :=
  if intTruthy o.quality then ["--quality=" ++ toString (orZero o.quality)] else []

/-- The tokens the output-file field contributes to `getArgs` (mod.ts 301-303). -/
def emitOutputFile (o : Options) : List String :=
  if strTruthy o.outputFile then ["-o", orEmpty o.outputFile] else []

/-- The tokens the network field contributes to `getArgs` (mod.ts 304-306). -/
def emitNetwork (o : Options) : List String :=
  if strTruthy o.network then ["-n", orEmpty o.network] else []

/-- The tokens the audio-device field contributes to `getArgs` (mod.ts 307-309). -/
def emitAudioDevice (o : Options) : List String :=
  if strTruthy o.audioDeviceID then ["-a", orEmpty o.audioDeviceID] else []

/-- The token the file-format field contributes to `getArgs` (mod.ts 310-312). -/
def emitFileFormat (o : Options) : List String :=
  if strTruthy o.fileFormat then ["--file-format=" ++ orEmpty o.fileFormat] else []

/-- `MacOsSay.setVoice` (mod.ts 461-464): `this.options.voice = voice || null`,
so an absent argument and the empty string both store `null`. -/
def setVoice (v : Option String) (o : Options) : Options :=
  { o with voice := match v with
      | some s => if s = "" then none else some s
      | none => none }

/-- `MacOsSay.setRate` (mod.ts 486-489): a present numeric argument is clamped
below by 1, an absent argument stores `null`. -/
def setRate (r : Option Int) (o : Options) : Options :=
  { o with rate := match r with
      | some n => some (max 1 n)
      | none => none }

/-- `MacOsSay.setQuality` (mod.ts 496-499): a present numeric argument is
clamped into `[0, 127]` by `Math.max(0, Math.min(127, quality))`, an absent
argument stores `null`. -/
def setQuality (q : Option Int) (o : Options) : Options :=
  { o with quality := match q with
      | some n => some (max 0 (min 127 n))
      | none => none }

/-- `MacOsSay.setOutputFile` (mod.ts 507-510): `outputFile || null`. -/
def setOutputFile (f : Option String) (o : Options) : Options :=
  { o with outputFile := match f with
      | some s => if s = "" then none else some s
      | none => none }

/-- `MacOsSay.setNetwork` (mod.ts 519-522): `network || null`. -/
def setNetwork (n : Option String) (o : Options) : Options :=
  { o with network := match n with
      | some s => if s = "" then none else some s
      | none => none }

/-- `MacOsSay.setAudioDeviceID` (mod.ts 529-532): `audioDeviceID || null`. -/
def setAudioDeviceID (a : Option String) (o : Options) : Options :=
  { o with audioDeviceID := match a with
      | some s => if s = "" then none else some s
      | none => none }

/-- `MacOsSay.setFileFormat` (mod.ts 540-543): `fileFormat || null`. -/
def setFileFormat (f : Option String) (o : Options) : Options :=
  { o with fileFormat := match f with
      | some s => if s = "" then none else some s
      | none => none }

/-- The `MacOsSay` constructor (mod.ts 276-288) applied to the record already
merged with the all-null defaults: throw `InvalidOptionError` when the rate is
truthy and below 1, then silently rewrite a truthy negative quality to 1 and a
truthy quality above 127 to 127. -/
def mkMacOsSay (o : Options) : Except SayError Options :=
  if intTruthy o.rate ∧ orZero o.rate < 1 then
    .error ⟨"Invalid rate: " ++ toString (orZero o.rate) ++
            ". Rate must be greater than or equal to 1.", "INVALID_OPTION"⟩
  else
    .ok { o with quality :=
      if intTruthy o.quality ∧ orZero o.quality < 0 then some 1
      else if intTruthy o.quality ∧ 127 < orZero o.quality then some 127
      else o.quality }

/-- Whether an `Except` result is a success (construction did not throw). -/
def exceptOk {α : Type} : Except SayError α → Bool
  | .ok _ => true
  | .error _ => false

/-- One fluent-setter invocation together with its (optional) argument. -/
inductive SetterOp where
  | voiceOp (v : Option String)
  | rateOp (r : Option Int)
  | qualityOp (q : Option Int)
  | outputFileOp (f : Option String)
  | networkOp (n : Option String)
  | audioDeviceOp (a : Option String)
  | fileFormatOp (f : Option String)
deriving Repr, DecidableEq

/-- Apply one fluent-setter invocation to an options record. -/
def applySetter : SetterOp → Options → Options
  | .voiceOp v, o => setVoice v o
  | .rateOp r, o => setRate r o
  | .qualityOp q, o => setQuality q o
  | .outputFileOp f, o => setOutputFile f o
  | .networkOp n, o => setNetwork n o
  | .audioDeviceOp a, o => setAudioDeviceID a o
  | .fileFormatOp f, o => setFileFormat f o

/-- Which of the seven fields a setter invocation touches. -/
def setterField : SetterOp → Nat
  | .voiceOp _ => 0
  | .rateOp _ => 1
  | .qualityOp _ => 2
  | .outputFileOp _ => 3
  | .networkOp _ => 4
  | .audioDeviceOp _ => 5
  | .fileFormatOp _ => 6

/-- A parsed voice record (`Voice` in types.ts 55-59). -/
structure Voice where
  name : String
  locale : String
  «example» : String
deriving Repr, DecidableEq

/-- ASCII lowercase letter, the `[a-z]` character class. -/
def isAsciiLower (c : Char) : Bool := 'a' ≤ c && c ≤ 'z'

/-- ASCII uppercase letter, the `[A-Z]` character class. -/
def isAsciiUpper (c : Char) : Bool := 'A' ≤ c && c ≤ 'Z'

/-- Whether the regular expression `[a-z]{2}_[A-Z]{2}` matches at the head of
the character list. -/
def localeAt : List Char → Bool
  | c1 :: c2 :: c3 :: c4 :: c5 :: _ =>
      isAsciiLower c1 && isAsciiLower c2 && (c3 == '_') && isAsciiUpper c4 && isAsciiUpper c5
  | _ => false

/-- Whether a character list is exactly one locale token (five characters
matching `[a-z]{2}_[A-Z]{2}`). -/
def isLocaleChars : List Char → Bool
  | [c1, c2, c3, c4, c5] =>
      isAsciiLower c1 && isAsciiLower c2 && (c3 == '_') && isAsciiUpper c4 && isAsciiUpper c5
  | _ => false

/-- `line.match(/[a-z]{2}_[A-Z]{2}/)` (mod.ts 370-371): the leftmost matching
substring, if any. -/
def firstLocale : List Char → Option (List Char)
  | [] => none
  | c :: rest =>
      if localeAt (c :: rest) then some ((c :: rest).take 5)
      else firstLocale rest

/-- `line.split(/[a-z]{2}_[A-Z]{2}/)` (mod.ts 372): the pieces of the line
between (all) matches of the locale pattern, scanning left to right. -/
def splitLocale : List Char → List (List Char)
  | [] => [[]]
  | c :: rest =>
      if localeAt (c :: rest) then
        match rest with
        | _ :: _ :: _ :: _ :: rest4 => [] :: splitLocale rest4
        | _ => [[]]
      else
        match splitLocale rest with
        | s :: ss => (c :: s) :: ss
        | [] => [[c]]

/-- The whitespace set of JavaScript `String.prototype.trim` restricted to the
ASCII characters that can occur in `say -v ?` output. -/
def isJsWhitespace (c : Char) : Bool :=
  c == ' ' || c == '\t' || c == '\n' || c == '\r' || c == '\x0b' || c == '\x0c'

/-- `s.trim()`: remove leading and trailing whitespace. -/
def trimChars (l : List Char) : List Char :=
  ((l.dropWhile isJsWhitespace).reverse.dropWhile isJsWhitespace).reverse

/-- `s.replace(/^# /, "")` (mod.ts 376): strip one leading `"# "` marker. -/
def stripHashMarker : List Char → List Char
  | '#' :: ' ' :: rest => rest
  | l => l

/-- The per-line body of `MacOsSay.getVoices` (mod.ts 369-380): if the locale
pattern matches, split the line on it, trim the part before the match as the
name, and trim and strip the part after the match as the example. -/
def parseVoiceLine (line : String) : Option Voice :=
  match firstLocale line.data with
  | none => none
  | some loc =>
      let parts := splitLocale line.data
      some { name := String.mk (trimChars (parts.getD 0 []))
             locale := String.mk loc
             «example» := String.mk (stripHashMarker (trimChars (parts.getD 1 []))) }

/-- The full parsing loop of `MacOsSay.getVoices` over the output lines:
lines without a match are dropped, output order follows input order. -/
def getVoicesParse (lines : List String) : List Voice :=
  lines.filterMap parseVoiceLine

/-- Captured result of one external-process invocation (the `Output` of
`@gnome/exec` as used by `getVoices`): success flag, output lines, error text. -/
structure ExecOutput where
  success : Bool
  lines : List String
  errorText : String

/-- The class-level voice cache (mod.ts 271-274): cached list and timestamp. -/
structure VoicesCacheState where
  voicesCache : Option (List Voice)
  voicesCacheTime : Nat
deriving Repr, DecidableEq

/-- `MacOsSay.CACHE_DURATION` (mod.ts 274): five minutes in milliseconds. -/
def CACHE_DURATION : Nat := 5 * 60 * 1000

/-- The fetch path of `MacOsSay.getVoices` (mod.ts 358-386) once the cache has
been bypassed: invoke the executor; on failure throw `VOICES_FETCH_ERROR`
without touching the cache; on success parse the lines and update the cache. -/
def fetchVoices (now : Nat) (output : ExecOutput) (st : VoicesCacheState) :
    Bool × Except SayError (List Voice) × VoicesCacheState :=
  if output.success then
    let voices := getVoicesParse output.lines
    (true, .ok voices, ⟨some voices, now⟩)
  else
    (true, .error ⟨"Failed to get voices: " ++ output.errorText, "VOICES_FETCH_ERROR"⟩, st)

/-- One call to `MacOsSay.getVoices` (mod.ts 351-387) with the clock and the
executor result passed explicitly.  The first component records whether the
external executor was invoked. -/
def getVoicesStep (st : VoicesCacheState) (now : Nat) (output : ExecOutput) :
    Bool × Except SayError (List Voice) × VoicesCacheState :=
  match st.voicesCache with
  | some cached =>
      if now - st.voicesCacheTime < CACHE_DURATION then (false, .ok cached, st)
      else fetchVoices now output st
  | none => fetchVoices now output st

/-- `MacOsSay.clearVoicesCache` (mod.ts 392-395). -/
def clearVoicesCache (_ : VoicesCacheState) : VoicesCacheState := ⟨none, 0⟩

/-- `MacOsSayConfig` (types.ts 192-200): seven optional fields. -/
structure MacOsSayConfig where
  defaultVoice : Option String
  defaultRate : Option Int
  defaultQuality : Option Int
  defaultAudioDevice : Option String
  cacheVoices : Option Bool
  cacheDuration : Option Int
  autoValidate : Option Bool
deriving Repr, DecidableEq

/-- JSON values as produced by `JSON.stringify` and consumed by `JSON.parse`
for the configuration file (no arrays occur in that file). -/
inductive Json where
  | null : Json
  | bool : Bool → Json
  | num : Int → Json
  | str : String → Json
  | obj : List (String × Json) → Json

/-- Property lookup on a parsed JSON object. -/
def jsonLookup : List (String × Json) → String → Option Json
  | [], _ => none
  | (k, v) :: rest, key => if k == key then some v else jsonLookup rest key

/-- Read a named field of a JSON value (absent on non-objects, as an access on
a JavaScript non-object would yield `undefined` here). -/
def jsonGet (j : Json) (key : String) : Option Json :=
  match j with
  | .obj fields => jsonLookup fields key
  | _ => none

/-- An optional field of a serialized object: `JSON.stringify` omits fields
whose value is `undefined`. -/
def optField (key : String) : Option Json → List (String × Json)
  | none => []
  | some j => [(key, j)]

/-- Serialization of a `MacOsSayConfig` value as `JSON.stringify` renders it
inside the configuration file. -/
def encodeConfig (c : MacOsSayConfig) : Json :=
  .obj (optField "defaultVoice" (c.defaultVoice.map .str) ++
        optField "defaultRate" (c.defaultRate.map .num) ++
        optField "defaultQuality" (c.defaultQuality.map .num) ++
        optField "defaultAudioDevice" (c.defaultAudioDevice.map .str) ++
        optField "cacheVoices" (c.cacheVoices.map .bool) ++
        optField "cacheDuration" (c.cacheDuration.map .num) ++
        optField "autoValidate" (c.autoValidate.map .bool))

/-- Typed reading of a string-valued configuration field. -/
def asStr : Option Json → Option String
  | some (.str s) => some s
  | _ => none

/-- Typed reading of a numeric configuration field. -/
def asNum : Option Json → Option Int
  | some (.num n) => some n
  | _ => none

/-- Typed reading of a boolean configuration field. -/
def asBool : Option Json → Option Bool
  | some (.bool b) => some b
  | _ => none

/-- The view of a parsed JSON value as a `MacOsSayConfig`: the seven known
fields are read, everything else in the object is invisible. -/
def decodeConfig (j : Json) : MacOsSayConfig :=
  { defaultVoice := asStr (jsonGet j "defaultVoice")
    defaultRate := asNum (jsonGet j "defaultRate")
    defaultQuality := asNum (jsonGet j "defaultQuality")
    defaultAudioDevice := asStr (jsonGet j "defaultAudioDevice")
    cacheVoices := asBool (jsonGet j "cacheVoices")
    cacheDuration := asNum (jsonGet j "cacheDuration")
    autoValidate := asBool (jsonGet j "autoValidate") }

/-- The key set of `MacOsSayConfig`. -/
def knownConfigKeys : List String :=
  ["defaultVoice", "defaultRate", "defaultQuality", "defaultAudioDevice",
   "cacheVoices", "cacheDuration", "autoValidate"]

/-- `MacOsSay.saveConfig` (mod.ts 677-685): write the JSON document
`{ version: "1.0.0", config, lastUpdated }` to the file store at `path`.
The store maps each path to the parsed form of the file's JSON text. -/
def saveConfig (c : MacOsSayConfig) (timestamp : String) (path : String)
    (fs : List (String × Json)) : List (String × Json) :=
  (path, Json.obj [("version", .str "1.0.0"),
                   ("config", encodeConfig c),
                   ("lastUpdated", .str timestamp)]) :: fs

/-- `MacOsSay.loadConfig` (mod.ts 692-701): read and parse the file, then
return its `config` field; an unreadable file raises `CONFIG_LOAD_ERROR`. -/
def loadConfig (path : String) (fs : List (String × Json)) :
    Except SayError MacOsSayConfig :=
  match jsonLookup fs path with
  | none => .error ⟨"Failed to load configuration: file not found", "CONFIG_LOAD_ERROR"⟩
  | some doc => .ok (decodeConfig ((jsonGet doc "config").getD .null))

/-- The argument vector always decomposes as the fixed-order concatenation of
the seven per-field token groups followed by the trailing positional tokens. -/
theorem getArgs_decomposition (o : Options) (suffixArgs : List String) :
    (getArgs o suffixArgs).1 =
      emitVoice o ++ emitRate o ++ emitQuality o ++ emitOutputFile o ++
        emitNetwork o ++ emitAudioDevice o ++ emitFileFormat o ++ suffixArgs := by
  have hpush : ∀ (b : Bool) (l a : List String),
      (if b then l ++ a else l) = l ++ (if b then a else []) := by
    intro b l a; cases b <;> simp
  simp only [getArgs]
  simp only [hpush]
  simp only [emitVoice, emitRate, emitQuality, emitOutputFile, emitNetwork,
    emitAudioDevice, emitFileFormat, List.nil_append, List.append_assoc]

theorem emitVoice_none (o : Options) (h : o.voice = none) : emitVoice o = [] := by
  simp [emitVoice, h, strTruthy]

theorem emitRate_none (o : Options) (h : o.rate = none) : emitRate o = [] := by
  simp [emitRate, h, intTruthy]

theorem emitQuality_none (o : Options) (h : o.quality = none) : emitQuality o = [] := by
  simp [emitQuality, h, intTruthy]

theorem emitOutputFile_none (o : Options) (h : o.outputFile = none) :
    emitOutputFile o = [] := by
  simp [emitOutputFile, h, strTruthy]

theorem emitNetwork_none (o : Options) (h : o.network = none) : emitNetwork o = [] := by
  simp [emitNetwork, h, strTruthy]

theorem emitAudioDevice_none (o : Options) (h : o.audioDeviceID = none) :
    emitAudioDevice o = [] := by
  simp [emitAudioDevice, h, strTruthy]

theorem emitFileFormat_none (o : Options) (h : o.fileFormat = none) :
    emitFileFormat o = [] := by
  simp [emitFileFormat, h, strTruthy]

/-- Setters touching distinct fields commute. -/
theorem applySetter_comm (s1 s2 : SetterOp) (o : Options)
    (h : setterField s1 ≠ setterField s2) :
    applySetter s1 (applySetter s2 o) = applySetter s2 (applySetter s1 o) := by
  cases s1 <;> cases s2 <;> first | rfl | exact absurd rfl h

/-- C1 (amended): the argument vector is always the fixed-order concatenation
voice, rate, quality, output file, network, audio device, file format, then
the positional tokens in the caller's order; a field that is unset (null)
contributes no tokens; and the result is independent of the order in which
fields were set, since setters of distinct fields commute.  (The claim's
reading of "set" as "non-null" is corrected to JavaScript truthiness: a field
that is set but falsy — quality 0, or an empty string — also contributes no
tokens, see the counterexample.) -/
theorem C1_args_fixed_order :
    (∀ (o : Options) (suffixArgs : List String),
        (getArgs o suffixArgs).1 =
          emitVoice o ++ emitRate o ++ emitQuality o ++ emitOutputFile o ++
            emitNetwork o ++ emitAudioDevice o ++ emitFileFormat o ++ suffixArgs)
    ∧ (∀ o : Options,
        (o.voice = none → emitVoice o = []) ∧
        (o.rate = none → emitRate o = []) ∧
        (o.quality = none → emitQuality o = []) ∧
        (o.outputFile = none → emitOutputFile o = []) ∧
        (o.network = none → emitNetwork o = []) ∧
        (o.audioDeviceID = none → emitAudioDevice o = []) ∧
        (o.fileFormat = none → emitFileFormat o = []))
    ∧ (∀ (s1 s2 : SetterOp) (o : Options), setterField s1 ≠ setterField s2 →
        applySetter s1 (applySetter s2 o) = applySetter s2 (applySetter s1 o)) :=
  ⟨getArgs_decomposition,
   fun o => ⟨emitVoice_none o, emitRate_none o, emitQuality_none o,
             emitOutputFile_none o, emitNetwork_none o, emitAudioDevice_none o,
             emitFileFormat_none o⟩,
   applySetter_comm⟩

/-- C1 counterexample: quality is set (non-null) to 0, yet the built argument
vector contains no `--quality=0` token before the positional tokens, contrary
to the claim's fixed sequence for set options. -/
theorem C1_counterexample :
    (⟨none, none, some 0, none, none, none, none⟩ : Options).quality = some 0 ∧
    (getArgs ⟨none, none, some 0, none, none, none, none⟩ ["Hello,", "world!"]).1 =
      ["Hello,", "world!"] ∧
    (getArgs ⟨none, none, some 0, none, none, none, none⟩ ["Hello,", "world!"]).1 ≠
      ["--quality=0", "Hello,", "world!"] := by
  decide

/-- C1 witness: the amended theorem applied at concrete inputs. -/
theorem C1_witness :
    emitVoice ⟨none, some 100, none, none, none, none, none⟩ = [] ∧
    applySetter (.voiceOp (some "Alex")) (applySetter (.rateOp (some 10)) defaultOptions) =
      applySetter (.rateOp (some 10)) (applySetter (.voiceOp (some "Alex")) defaultOptions) :=
  ⟨(C1_args_fixed_order.2.1 ⟨none, some 100, none, none, none, none, none⟩).1 rfl,
   C1_args_fixed_order.2.2 (.voiceOp (some "Alex")) (.rateOp (some 10)) defaultOptions
     (by decide)⟩

/-- C2 (amended): a quality field set to exactly 0 is falsy under the
emitter's truthiness test, so it is treated as unset: no `--quality=0` token
is emitted and the built vector consists of the other six groups only. -/
theorem C2_quality_zero_unset :
    ∀ o : Options, o.quality = some 0 →
      emitQuality o = [] ∧
      ∀ suffixArgs : List String,
        (getArgs o suffixArgs).1 =
          emitVoice o ++ emitRate o ++ emitOutputFile o ++ emitNetwork o ++
            emitAudioDevice o ++ emitFileFormat o ++ suffixArgs := by
  intro o h
  have hq : emitQuality o = [] := by simp [emitQuality, h, intTruthy]
  exact ⟨hq, fun s => by rw [getArgs_decomposition, hq]; simp⟩

/-- C2 counterexample: with quality set to exactly 0 the translator emits no
`--quality=0` token at all. -/
theorem C2_counterexample :
    (⟨none, none, some 0, none, none, none, none⟩ : Options).quality = some 0 ∧
    "--quality=0" ∉ (getArgs ⟨none, none, some 0, none, none, none, none⟩ ["x"]).1 ∧
    (getArgs ⟨none, none, some 0, none, none, none, none⟩ ["x"]).1 = ["x"] := by
  decide

/-- C2 witness: the amended theorem applied at a concrete record. -/
theorem C2_witness :
    emitQuality ⟨none, none, some 0, none, none, none, none⟩ = [] :=
  (C2_quality_zero_unset ⟨none, none, some 0, none, none, none, none⟩ rfl).1

/-- C8 (confirmed): calling any field's fluent setter with no argument makes
the field read back as unset (null), and the next build contains no tokens for
that field: the vector is exactly the other six groups plus the positional
tokens. -/
theorem C8_unset_setters :
    ∀ o : Options,
      ((setVoice none o).voice = none ∧
        ∀ s, (getArgs (setVoice none o) s).1 =
          emitRate (setVoice none o) ++ emitQuality (setVoice none o) ++
            emitOutputFile (setVoice none o) ++ emitNetwork (setVoice none o) ++
            emitAudioDevice (setVoice none o) ++ emitFileFormat (setVoice none o) ++ s) ∧
      ((setRate none o).rate = none ∧
        ∀ s, (getArgs (setRate none o) s).1 =
          emitVoice (setRate none o) ++ emitQuality (setRate none o) ++
            emitOutputFile (setRate none o) ++ emitNetwork (setRate none o) ++
            emitAudioDevice (setRate none o) ++ emitFileFormat (setRate none o) ++ s) ∧
      ((setQuality none o).quality = none ∧
        ∀ s, (getArgs (setQuality none o) s).1 =
          emitVoice (setQuality none o) ++ emitRate (setQuality none o) ++
            emitOutputFile (setQuality none o) ++ emitNetwork (setQuality none o) ++
            emitAudioDevice (setQuality none o) ++ emitFileFormat (setQuality none o) ++ s) ∧
      ((setOutputFile none o).outputFile = none ∧
        ∀ s, (getArgs (setOutputFile none o) s).1 =
          emitVoice (setOutputFile none o) ++ emitRate (setOutputFile none o) ++
            emitQuality (setOutputFile none o) ++ emitNetwork (setOutputFile none o) ++
            emitAudioDevice (setOutputFile none o) ++ emitFileFormat (setOutputFile none o) ++ s) ∧
      ((setNetwork none o).network = none ∧
        ∀ s, (getArgs (setNetwork none o) s).1 =
          emitVoice (setNetwork none o) ++ emitRate (setNetwork none o) ++
            emitQuality (setNetwork none o) ++ emitOutputFile (setNetwork none o) ++
            emitAudioDevice (setNetwork none o) ++ emitFileFormat (setNetwork none o) ++ s) ∧
      ((setAudioDeviceID none o).audioDeviceID = none ∧
        ∀ s, (getArgs (setAudioDeviceID none o) s).1 =
          emitVoice (setAudioDeviceID none o) ++ emitRate (setAudioDeviceID none o) ++
            emitQuality (setAudioDeviceID none o) ++ emitOutputFile (setAudioDeviceID none o) ++
            emitNetwork (setAudioDeviceID none o) ++ emitFileFormat (setAudioDeviceID none o) ++ s) ∧
      ((setFileFormat none o).fileFormat = none ∧
        ∀ s, (getArgs (setFileFormat none o) s).1 =
          emitVoice (setFileFormat none o) ++ emitRate (setFileFormat none o) ++
            emitQuality (setFileFormat none o) ++ emitOutputFile (setFileFormat none o) ++
            emitNetwork (setFileFormat none o) ++ emitAudioDevice (setFileFormat none o) ++ s) := by
  refine fun o => ⟨⟨rfl, fun s => ?_⟩, ⟨rfl, fun s => ?_⟩, ⟨rfl, fun s => ?_⟩,
    ⟨rfl, fun s => ?_⟩, ⟨rfl, fun s => ?_⟩, ⟨rfl, fun s => ?_⟩, ⟨rfl, fun s => ?_⟩⟩
  · rw [getArgs_decomposition, emitVoice_none _ rfl]; simp
  · rw [getArgs_decomposition, emitRate_none _ rfl]; simp
  · rw [getArgs_decomposition, emitQuality_none _ rfl]; simp
  · rw [getArgs_decomposition, emitOutputFile_none _ rfl]; simp
  · rw [getArgs_decomposition, emitNetwork_none _ rfl]; simp
  · rw [getArgs_decomposition, emitAudioDevice_none _ rfl]; simp
  · rw [getArgs_decomposition, emitFileFormat_none _ rfl]; simp

/-- C10 (confirmed): passing the empty string to any string-valued fluent
setter stores the field as unset (null) — indistinguishable from calling the
setter with no argument — and the next build emits no tokens for that field. -/
theorem C10_empty_string_setters :
    ∀ o : Options,
      (setVoice (some "") o = setVoice none o ∧ (setVoice (some "") o).voice = none ∧
        ∀ s, (getArgs (setVoice (some "") o) s).1 =
          emitRate (setVoice (some "") o) ++ emitQuality (setVoice (some "") o) ++
            emitOutputFile (setVoice (some "") o) ++ emitNetwork (setVoice (some "") o) ++
            emitAudioDevice (setVoice (some "") o) ++ emitFileFormat (setVoice (some "") o) ++ s) ∧
      (setOutputFile (some "") o = setOutputFile none o ∧
        (setOutputFile (some "") o).outputFile = none ∧
        ∀ s, (getArgs (setOutputFile (some "") o) s).1 =
          emitVoice (setOutputFile (some "") o) ++ emitRate (setOutputFile (some "") o) ++
            emitQuality (setOutputFile (some "") o) ++ emitNetwork (setOutputFile (some "") o) ++
            emitAudioDevice (setOutputFile (some "") o) ++ emitFileFormat (setOutputFile (some "") o) ++ s) ∧
      (setNetwork (some "") o = setNetwork none o ∧ (setNetwork (some "") o).network = none ∧
        ∀ s, (getArgs (setNetwork (some "") o) s).1 =
          emitVoice (setNetwork (some "") o) ++ emitRate (setNetwork (some "") o) ++
            emitQuality (setNetwork (some "") o) ++ emitOutputFile (setNetwork (some "") o) ++
            emitAudioDevice (setNetwork (some "") o) ++ emitFileFormat (setNetwork (some "") o) ++ s) ∧
      (setAudioDeviceID (some "") o = setAudioDeviceID none o ∧
        (setAudioDeviceID (some "") o).audioDeviceID = none ∧
        ∀ s, (getArgs (setAudioDeviceID (some "") o) s).1 =
          emitVoice (setAudioDeviceID (some "") o) ++ emitRate (setAudioDeviceID (some "") o) ++
            emitQuality (setAudioDeviceID (some "") o) ++ emitOutputFile (setAudioDeviceID (some "") o) ++
            emitNetwork (setAudioDeviceID (some "") o) ++ emitFileFormat (setAudioDeviceID (some "") o) ++ s) ∧
      (setFileFormat (some "") o = setFileFormat none o ∧
        (setFileFormat (some "") o).fileFormat = none ∧
        ∀ s, (getArgs (setFileFormat (some "") o) s).1 =
          emitVoice (setFileFormat (some "") o) ++ emitRate (setFileFormat (some "") o) ++
            emitQuality (setFileFormat (some "") o) ++ emitOutputFile (setFileFormat (some "") o) ++
            emitNetwork (setFileFormat (some "") o) ++ emitAudioDevice (setFileFormat (some "") o) ++ s) := by
  refine fun o => ⟨⟨rfl, rfl, fun s => ?_⟩, ⟨rfl, rfl, fun s => ?_⟩,
    ⟨rfl, rfl, fun s => ?_⟩, ⟨rfl, rfl, fun s => ?_⟩, ⟨rfl, rfl, fun s => ?_⟩⟩
  · rw [getArgs_decomposition, emitVoice_none _ rfl]; simp
  · rw [getArgs_decomposition, emitOutputFile_none _ rfl]; simp
  · rw [getArgs_decomposition, emitNetwork_none _ rfl]; simp
  · rw [getArgs_decomposition, emitAudioDevice_none _ rfl]; simp
  · rw [getArgs_decomposition, emitFileFormat_none _ rfl]; simp

/-- C4 (amended): at construction a quality below 0 is stored as 1 (the
documented quirk) and a quality above 127 as 127, values in [0,127] being kept;
the fluent setter, however, clamps a quality below 0 to 0 — not 1 — via
`Math.max(0, Math.min(127, quality))`, keeping the remaining cases. -/
theorem C4_quality_clamping :
    (∀ (o o' : Options) (q : Int), mkMacOsSay o = .ok o' → o.quality = some q →
        o'.quality = some (if q < 0 then 1 else if 127 < q then 127 else q))
    ∧ (∀ (o : Options) (q : Int),
        (setQuality (some q) o).quality =
          some (if q < 0 then 0 else if 127 < q then 127 else q)) := by
  constructor
  · intro o o' q hok hq
    simp only [mkMacOsSay] at hok
    split at hok
    · exact absurd hok (by simp)
    · have h' := (Except.ok.injEq _ _).mp hok
      have : o'.quality =
          (if intTruthy o.quality ∧ orZero o.quality < 0 then some 1
           else if intTruthy o.quality ∧ 127 < orZero o.quality then some 127
           else o.quality) := by rw [← h']
      rw [this, hq]
      simp only [intTruthy, orZero, Option.getD_some, bne_iff_ne]
      split_ifs <;> simp only [Option.some.injEq] <;> omega
  · intro o q
    simp only [setQuality, Option.some.injEq]
    split_ifs <;> omega

/-- C4 counterexample: the quality setter maps the negative input -5 to the
stored value 0, not 1. -/
theorem C4_counterexample :
    (-5 : Int) < 0 ∧
    (setQuality (some (-5)) defaultOptions).quality = some 0 ∧
    (setQuality (some (-5)) defaultOptions).quality ≠ some 1 := by
  decide

/-- C4 witness: the amended theorem's constructor branch at quality -100. -/
theorem C4_witness :
    (⟨none, none, some 1, none, none, none, none⟩ : Options).quality =
      some (if (-100 : Int) < 0 then 1 else if 127 < (-100 : Int) then 127 else -100) :=
  C4_quality_clamping.1 ⟨none, none, some (-100), none, none, none, none⟩
    ⟨none, none, some 1, none, none, none, none⟩ (-100) rfl rfl

/-- C5 (amended): constructing with a nonzero rate strictly below 1 raises the
invalid-option error, while construction with the rate absent, equal to 0
(falsy, so the truthiness guard skips the check), or at least 1 succeeds. -/
theorem C5_rate_validation :
    (∀ (o : Options) (r : Int), o.rate = some r → r ≠ 0 → r < 1 →
        exceptOk (mkMacOsSay o) = false)
    ∧ (∀ o : Options,
        (o.rate = none ∨ o.rate = some 0 ∨ ∃ r, o.rate = some r ∧ 1 ≤ r) →
        exceptOk (mkMacOsSay o) = true) := by
  constructor
  · intro o r hr h0 h1
    simp [mkMacOsSay, exceptOk, hr, intTruthy, orZero, bne_iff_ne, h0, h1]
  · intro o h
    rcases h with h | h | ⟨r, hr, h1⟩
    · simp [mkMacOsSay, exceptOk, h, intTruthy]
    · simp [mkMacOsSay, exceptOk, h, intTruthy, orZero]
    · simp [mkMacOsSay, exceptOk, hr, intTruthy, orZero, bne_iff_ne,
        show ¬(r < 1) by omega]

/-- C5 counterexample: rate 0 is strictly below 1 yet construction succeeds,
because `this.options.rate && this.options.rate < 1` is falsy at 0. -/
theorem C5_counterexample :
    (0 : Int) < 1 ∧
    exceptOk (mkMacOsSay ⟨none, some 0, none, none, none, none, none⟩) = true := by
  exact ⟨by decide, rfl⟩

/-- C5 witness: the amended theorem applied at rate -3 and at rate 200. -/
theorem C5_witness :
    exceptOk (mkMacOsSay ⟨none, some (-3), none, none, none, none, none⟩) = false ∧
    exceptOk (mkMacOsSay ⟨none, some 200, none, none, none, none, none⟩) = true :=
  ⟨C5_rate_validation.1 ⟨none, some (-3), none, none, none, none, none⟩ (-3) rfl
      (by decide) (by decide),
   C5_rate_validation.2 ⟨none, some 200, none, none, none, none, none⟩
      (Or.inr (Or.inr ⟨200, rfl, by decide⟩))⟩

/-- C6 (confirmed): when the first of two consecutive catalog fetches succeeds
and the second occurs within the five-minute time-to-live, the executor is
invoked at most once across the pair; a fetch at least the time-to-live after
the (monotone) cache timestamp invokes the executor again, and so does any
fetch after an explicit cache invalidation. -/
theorem C6_voices_cache :
    (∀ (st : VoicesCacheState) (t1 t2 : Nat) (r1 r2 : ExecOutput),
        t1 ≤ t2 → t2 - t1 < CACHE_DURATION →
        exceptOk (getVoicesStep st t1 r1).2.1 = true →
        ((getVoicesStep st t1 r1).1 &&
          (getVoicesStep (getVoicesStep st t1 r1).2.2 t2 r2).1) = false)
    ∧ (∀ (st : VoicesCacheState) (t1 t2 : Nat) (r1 r2 : ExecOutput),
        st.voicesCacheTime ≤ t1 → t1 + CACHE_DURATION ≤ t2 →
        (getVoicesStep (getVoicesStep st t1 r1).2.2 t2 r2).1 = true)
    ∧ (∀ (st : VoicesCacheState) (t : Nat) (r : ExecOutput),
        (getVoicesStep (clearVoicesCache st) t r).1 = true) := by
  refine ⟨?_, ?_, ?_⟩
  · intro st t1 t2 r1 r2 hle hfresh hok
    match hst : st.voicesCache with
    | some cached =>
        by_cases hhit : t1 - st.voicesCacheTime < CACHE_DURATION
        · simp [getVoicesStep, hst, hhit]
        · simp only [getVoicesStep, hst, if_neg hhit, fetchVoices] at hok ⊢
          cases hsucc : r1.success with
          | true => simp [hsucc, getVoicesStep, hfresh]
          | false => simp [hsucc, exceptOk] at hok
    | none =>
        simp only [getVoicesStep, hst, fetchVoices] at hok ⊢
        cases hsucc : r1.success with
        | true => simp [hsucc, getVoicesStep, hfresh]
        | false => simp [hsucc, exceptOk] at hok
  · intro st t1 t2 r1 r2 hmono hexp
    have hdur : 0 < CACHE_DURATION := by decide
    match hst : st.voicesCache with
    | some cached =>
        by_cases hhit : t1 - st.voicesCacheTime < CACHE_DURATION
        · simp only [getVoicesStep, hst, if_pos hhit]
          have : ¬ t2 - st.voicesCacheTime < CACHE_DURATION := by omega
          simp only [getVoicesStep, hst, if_neg this, fetchVoices]
          cases r2.success <;> simp
        · simp only [getVoicesStep, hst, if_neg hhit, fetchVoices]
          cases hsucc : r1.success with
          | true =>
              have : ¬ t2 - t1 < CACHE_DURATION := by omega
              simp [getVoicesStep, this, fetchVoices]
              cases r2.success <;> simp
          | false =>
              simp only [hsucc, Bool.false_eq_true, if_neg (by simp : ¬False)]
              have : ¬ t2 - st.voicesCacheTime < CACHE_DURATION := by omega
              simp only [getVoicesStep, hst, if_neg this, fetchVoices]
              cases r2.success <;> simp
    | none =>
        simp only [getVoicesStep, hst, fetchVoices]
        cases hsucc : r1.success with
        | true =>
            have : ¬ t2 - t1 < CACHE_DURATION := by omega
            simp [getVoicesStep, this, fetchVoices]
            cases r2.success <;> simp
        | false =>
            simp only [hsucc, Bool.false_eq_true, if_neg (by simp : ¬False)]
            simp only [getVoicesStep, hst, fetchVoices]
            cases r2.success <;> simp
  · intro st t r
    simp only [clearVoicesCache, getVoicesStep, fetchVoices]
    cases r.success <;> simp

/-- C6 witness: the three conjuncts at concrete states and times. -/
theorem C6_witness :
    ((getVoicesStep ⟨none, 0⟩ 10 ⟨true, [], ""⟩).1 &&
      (getVoicesStep (getVoicesStep ⟨none, 0⟩ 10 ⟨true, [], ""⟩).2.2 20 ⟨true, [], ""⟩).1) = false ∧
    (getVoicesStep (getVoicesStep ⟨none, 0⟩ 10 ⟨true, [], ""⟩).2.2 300010 ⟨true, [], ""⟩).1 = true ∧
    (getVoicesStep (clearVoicesCache ⟨some [], 10⟩) 11 ⟨true, [], ""⟩).1 = true :=
  ⟨C6_voices_cache.1 ⟨none, 0⟩ 10 20 ⟨true, [], ""⟩ ⟨true, [], ""⟩
      (by decide) (by decide) rfl,
   C6_voices_cache.2.1 ⟨none, 0⟩ 10 300010 ⟨true, [], ""⟩ ⟨true, [], ""⟩
      (by decide) (by decide),
   C6_voices_cache.2.2 ⟨some [], 10⟩ 11 ⟨true, [], ""⟩⟩

/-- C7 (confirmed): whenever a catalog fetch actually invokes the executor and
the executor reports non-success, the raised error carries the captured error
text verbatim after the fixed prefix and is tagged `VOICES_FETCH_ERROR`, the
cache is left untouched, and the parser is not invoked — the outcome does not
depend on the output lines at all. -/
theorem C7_fetch_failure :
    ∀ (st : VoicesCacheState) (now : Nat) (output : ExecOutput),
      output.success = false → (getVoicesStep st now output).1 = true →
      (getVoicesStep st now output).2.1 =
        .error ⟨"Failed to get voices: " ++ output.errorText, "VOICES_FETCH_ERROR"⟩ ∧
      (getVoicesStep st now output).2.2 = st ∧
      ∀ otherLines : List String,
        getVoicesStep st now output =
          getVoicesStep st now ⟨output.success, otherLines, output.errorText⟩ := by
  intro st now output hfail hinv
  match hst : st.voicesCache with
  | some cached =>
      by_cases hhit : now - st.voicesCacheTime < CACHE_DURATION
      · simp [getVoicesStep, hst, hhit] at hinv
      · simp [getVoicesStep, hst, hhit, fetchVoices, hfail]
  | none =>
      simp [getVoicesStep, hst, fetchVoices, hfail]

/-- C7 witness: the theorem applied at a concrete failing executor output. -/
theorem C7_witness :
    (getVoicesStep ⟨none, 0⟩ 5 ⟨false, ["junk"], "boom"⟩).2.1 =
      .error ⟨"Failed to get voices: boom", "VOICES_FETCH_ERROR"⟩ ∧
    (getVoicesStep ⟨none, 0⟩ 5 ⟨false, ["junk"], "boom"⟩).2.2 = (⟨none, 0⟩ : VoicesCacheState) ∧
    ∀ otherLines : List String,
      getVoicesStep ⟨none, 0⟩ 5 ⟨false, ["junk"], "boom"⟩ =
        getVoicesStep ⟨none, 0⟩ 5 ⟨false, otherLines, "boom"⟩ :=
  C7_fetch_failure ⟨none, 0⟩ 5 ⟨false, ["junk"], "boom"⟩ rfl rfl

set_option maxHeartbeats 2000000 in
/-- Decoding an encoded configuration recovers every field. -/
theorem decodeConfig_encodeConfig (c : MacOsSayConfig) :
    decodeConfig (encodeConfig c) = c := by
  obtain ⟨v, r, q, a, cv, cd, av⟩ := c
  cases v <;> cases r <;> cases q <;> cases a <;> cases cv <;> cases cd <;> cases av <;> rfl

/-- Keys outside the `MacOsSayConfig` schema are invisible to the typed view. -/
theorem decodeConfig_unknown_key (fields : List (String × Json)) (k : String) (v : Json)
    (h : k ∉ knownConfigKeys) :
    decodeConfig (.obj ((k, v) :: fields)) = decodeConfig (.obj fields) := by
  simp only [knownConfigKeys, List.mem_cons, List.not_mem_nil, or_false, not_or] at h
  obtain ⟨h1, h2, h3, h4, h5, h6, h7⟩ := h
  simp [decodeConfig, jsonGet, jsonLookup, beq_iff_eq, h1, h2, h3, h4, h5, h6, h7]

/-- C9 (confirmed): saving a configuration and loading it back reproduces an
equal configuration record (all seven fields), and any field outside the
schema present in a stored config object is not seen by the load result. -/
theorem C9_config_roundtrip :
    (∀ (c : MacOsSayConfig) (ts path : String) (fs : List (String × Json)),
        loadConfig path (saveConfig c ts path fs) = .ok c)
    ∧ (∀ (fields : List (String × Json)) (k : String) (v : Json),
        k ∉ knownConfigKeys →
        decodeConfig (.obj ((k, v) :: fields)) = decodeConfig (.obj fields)) := by
  constructor
  · intro c ts path fs
    have h : jsonLookup (saveConfig c ts path fs) path =
        some (Json.obj [("version", .str "1.0.0"), ("config", encodeConfig c),
                        ("lastUpdated", .str ts)]) := by
      simp [saveConfig, jsonLookup]
    simp only [loadConfig, h]
    exact congrArg Except.ok (decodeConfig_encodeConfig c)
  · exact decodeConfig_unknown_key

/-- C9 witness: a concrete round trip and a concrete unknown field. -/
theorem C9_witness :
    loadConfig "cfg.json"
        (saveConfig ⟨some "Alex", some 150, none, none, some true, none, none⟩
          "2025-01-01T00:00:00.000Z" "cfg.json" []) =
      .ok ⟨some "Alex", some 150, none, none, some true, none, none⟩ ∧
    decodeConfig (.obj [("unknownField", Json.str "x")]) = decodeConfig (.obj []) :=
  ⟨C9_config_roundtrip.1 ⟨some "Alex", some 150, none, none, some true, none, none⟩
      "2025-01-01T00:00:00.000Z" "cfg.json" [],
   C9_config_roundtrip.2 [] "unknownField" (.str "x") (by decide)⟩

theorem string_data_mk (l : List Char) : (String.mk l).data = l := rfl

/-- A locale token put in front of any tail matches the pattern there. -/
theorem localeAt_append (loc rest : List Char) (h : isLocaleChars loc = true) :
    localeAt (loc ++ rest) = true := by
  rcases loc with _ | ⟨c1, _ | ⟨c2, _ | ⟨c3, _ | ⟨c4, _ | ⟨c5, _ | ⟨c6, t⟩⟩⟩⟩⟩⟩ <;>
    simp_all [isLocaleChars, localeAt]

theorem isLocaleChars_length (loc : List Char) (h : isLocaleChars loc = true) :
    loc.length = 5 := by
  rcases loc with _ | ⟨c1, _ | ⟨c2, _ | ⟨c3, _ | ⟨c4, _ | ⟨c5, _ | ⟨c6, t⟩⟩⟩⟩⟩⟩ <;>
    simp_all [isLocaleChars]

/-- On a line without any pattern match, the split is the whole line. -/
theorem splitLocale_no_match (l : List Char)
    (h : ∀ j, j < l.length → localeAt (l.drop j) = false) :
    splitLocale l = [l] := by
  induction l with
  | nil => rfl
  | cons c rest ih =>
      have h0 : localeAt (c :: rest) = false := by simpa using h 0 (by simp)
      have hrest : ∀ j, j < rest.length → localeAt (rest.drop j) = false := by
        intro j hj
        simpa using h (j + 1) (by simp [List.length_cons]; omega)
      unfold splitLocale
      simp [h0, ih hrest]

/-- On a line without any pattern match, `match` reports no match. -/
theorem firstLocale_no_match (l : List Char)
    (h : ∀ j, j < l.length → localeAt (l.drop j) = false) :
    firstLocale l = none := by
  induction l with
  | nil => rfl
  | cons c rest ih =>
      have h0 : localeAt (c :: rest) = false := by simpa using h 0 (by simp)
      have hrest : ∀ j, j < rest.length → localeAt (rest.drop j) = false := by
        intro j hj
        simpa using h (j + 1) (by simp [List.length_cons]; omega)
      unfold firstLocale
      simp [h0, ih hrest]

/-- A list accepted by the locale-token test has exactly five characters. -/
theorem isLocaleChars_shape (loc : List Char) (h : isLocaleChars loc = true) :
    ∃ c1 c2 c3 c4 c5, loc = [c1, c2, c3, c4, c5] := by
  rcases loc with _ | ⟨c1, _ | ⟨c2, _ | ⟨c3, _ | ⟨c4, _ | ⟨c5, _ | ⟨c6, t⟩⟩⟩⟩⟩⟩ <;>
    simp_all [isLocaleChars]

/-- Splitting a line whose only pattern match separates `pre` from `post`
yields exactly those two parts. -/
theorem splitLocale_single (pre loc post : List Char)
    (hloc : isLocaleChars loc = true)
    (hU : ∀ j, j < (pre ++ (loc ++ post)).length → j ≠ pre.length →
        localeAt ((pre ++ (loc ++ post)).drop j) = false) :
    splitLocale (pre ++ (loc ++ post)) = [pre, post] := by
  induction pre with
  | nil =>
      obtain ⟨c1, c2, c3, c4, c5, rfl⟩ := isLocaleChars_shape loc hloc
      simp only [List.nil_append, List.cons_append] at hU ⊢
      have hloc5 : localeAt (c1 :: c2 :: c3 :: c4 :: c5 :: post) = true := by
        have := localeAt_append [c1, c2, c3, c4, c5] post hloc
        simpa using this
      have hpost : ∀ j, j < post.length → localeAt (post.drop j) = false := by
        intro j hj
        have hdrop : (c1 :: c2 :: c3 :: c4 :: c5 :: post).drop (j + 5) = post.drop j := rfl
        have hb : j + 5 < (c1 :: c2 :: c3 :: c4 :: c5 :: post).length := by
          simp [List.length_cons]; omega
        have h5 := hU (j + 5) hb (by simp only [List.length_nil]; omega)
        rw [hdrop] at h5
        exact h5
      unfold splitLocale
      simp [hloc5, splitLocale_no_match post hpost]
  | cons c pre' ih =>
      simp only [List.cons_append] at hU ⊢
      have h0 : localeAt (c :: (pre' ++ (loc ++ post))) = false := by
        have := hU 0 (by simp) (by simp only [List.length_cons]; omega)
        simpa using this
      have hU' : ∀ j, j < (pre' ++ (loc ++ post)).length → j ≠ pre'.length →
          localeAt ((pre' ++ (loc ++ post)).drop j) = false := by
        intro j hj hne
        have hdrop : (c :: (pre' ++ (loc ++ post))).drop (j + 1) =
            (pre' ++ (loc ++ post)).drop j := rfl
        have := hU (j + 1) (by simp only [List.length_cons]; omega)
          (by simp only [List.length_cons]; omega)
        rw [hdrop] at this
        exact this
      have hrec := ih hU'
      unfold splitLocale
      simp [h0, hrec]

/-- The leftmost (and only) pattern match of such a line is the locale token. -/
theorem firstLocale_single (pre loc post : List Char)
    (hloc : isLocaleChars loc = true)
    (hU : ∀ j, j < (pre ++ (loc ++ post)).length → j ≠ pre.length →
        localeAt ((pre ++ (loc ++ post)).drop j) = false) :
    firstLocale (pre ++ (loc ++ post)) = some loc := by
  induction pre with
  | nil =>
      obtain ⟨c1, c2, c3, c4, c5, rfl⟩ := isLocaleChars_shape loc hloc
      simp only [List.nil_append, List.cons_append] at hU ⊢
      have hloc5 : localeAt (c1 :: c2 :: c3 :: c4 :: c5 :: post) = true := by
        have := localeAt_append [c1, c2, c3, c4, c5] post hloc
        simpa using this
      unfold firstLocale
      simp [hloc5]
  | cons c pre' ih =>
      simp only [List.cons_append] at hU ⊢
      have h0 : localeAt (c :: (pre' ++ (loc ++ post))) = false := by
        have := hU 0 (by simp) (by simp only [List.length_cons]; omega)
        simpa using this
      have hU' : ∀ j, j < (pre' ++ (loc ++ post)).length → j ≠ pre'.length →
          localeAt ((pre' ++ (loc ++ post)).drop j) = false := by
        intro j hj hne
        have hdrop : (c :: (pre' ++ (loc ++ post))).drop (j + 1) =
            (pre' ++ (loc ++ post)).drop j := rfl
        have := hU (j + 1) (by simp only [List.length_cons]; omega)
          (by simp only [List.length_cons]; omega)
        rw [hdrop] at this
        exact this
      unfold firstLocale
      simp [h0, ih hU']

/-- Parsing one line that decomposes around its unique locale token. -/
theorem parseVoiceLine_single (pre loc post : List Char)
    (hloc : isLocaleChars loc = true)
    (hU : ∀ j, j < (pre ++ (loc ++ post)).length → j ≠ pre.length →
        localeAt ((pre ++ (loc ++ post)).drop j) = false) :
    parseVoiceLine (String.mk (pre ++ (loc ++ post))) =
      some { name := String.mk (trimChars pre), locale := String.mk loc,
             «example» := String.mk (stripHashMarker (trimChars post)) } := by
  simp only [parseVoiceLine, string_data_mk, firstLocale_single pre loc post hloc hU,
    splitLocale_single pre loc post hloc hU]
  simp [List.getD]

set_option maxRecDepth 4000 in
/-- C3 (confirmed): a line containing exactly one substring matching
`[a-z]{2}_[A-Z]{2}` parses to the record whose locale is that substring,
whose name is the text before it trimmed, and whose example is the text after
it trimmed and stripped of one leading hash-space marker; a line with no
match produces no record; output order follows input order; and the two
Sandy example lines parse to exactly the two stated records. -/
theorem C3_voice_parsing :
    (∀ pre loc post : List Char,
        isLocaleChars loc = true →
        (∀ j, j < (pre ++ (loc ++ post)).length → j ≠ pre.length →
            localeAt ((pre ++ (loc ++ post)).drop j) = false) →
        parseVoiceLine (String.mk (pre ++ (loc ++ post))) =
          some { name := String.mk (trimChars pre), locale := String.mk loc,
                 «example» := String.mk (stripHashMarker (trimChars post)) })
    ∧ (∀ l : List Char, (∀ j, j < l.length → localeAt (l.drop j) = false) →
        parseVoiceLine (String.mk l) = none)
    ∧ (∀ ls1 ls2 : List String,
        getVoicesParse (ls1 ++ ls2) = getVoicesParse ls1 ++ getVoicesParse ls2)
    ∧ getVoicesParse ["Sandy (French (Canada)) fr_CA    # Bonjour! Je m'appelle Sandy.",
                      "Sandy (French (France)) fr_FR    # Bonjour, je m'appelle Sandy."] =
        [{ name := "Sandy (French (Canada))", locale := "fr_CA",
           «example» := "Bonjour! Je m'appelle Sandy." },
         { name := "Sandy (French (France))", locale := "fr_FR",
           «example» := "Bonjour, je m'appelle Sandy." }] := by
  refine ⟨parseVoiceLine_single, ?_, ?_, by decide⟩
  · intro l h
    simp only [parseVoiceLine, string_data_mk, firstLocale_no_match l h]
  · intro ls1 ls2
    simp [getVoicesParse]

/-- C3 witness: the decomposition conjunct applied to the concrete line
`"A en_US # hi"` split around its locale token. -/
theorem C3_witness :
    parseVoiceLine
        (String.mk (['A', ' '] ++ (['e', 'n', '_', 'U', 'S'] ++ [' ', '#', ' ', 'h', 'i']))) =
      some { name := String.mk (trimChars ['A', ' ']),
             locale := String.mk ['e', 'n', '_', 'U', 'S'],
             «example» := String.mk (stripHashMarker (trimChars [' ', '#', ' ', 'h', 'i'])) } :=
  C3_voice_parsing.1 ['A', ' '] ['e', 'n', '_', 'U', 'S'] [' ', '#', ' ', 'h', 'i']
    (by decide) (by decide)

end MacosSay
